import Mathlib

/-!
Verification development for the ixtop repository (an interactive NVIDIA-GPU
process viewer).  Two source files are modelled:

* src/nvitop/gui/screens/main/host.py   -- class HostPanel
* src/nvhtop/panel.py                   -- classes DevicePanel and ProcessPanel

Python strings are modelled as Lean String values, Python ints as Int or Nat,
Python floats as rationals, the NA sentinel as Option.none, and Python object
state as Lean structures with explicit state-passing.  Data produced by
library code that is not part of the repository (curses windows, the
BufferedHistoryGraph rendering internals, psutil readings, make_bar,
Device.color_of, time.strftime, cut_string) enters the model as plain data
or function fields of explicit world records, so that the panel methods
under verification stay faithful to the lines of the source files.
-/

namespace IxTop

/-! ### Python string primitives used by the panels -/

/-- Python s.rjust-style padding as performed by a format spec such as
a right-aligned field of width w: left-pad with spaces, never truncate. -/
def pyRjust (w : Nat) (s : String) : String :=
  if w ≤ s.length then s else String.mk (List.replicate (w - s.length) ' ') ++ s

/-- Python left-aligned format field of width w: right-pad with spaces. -/
def pyLjust (w : Nat) (s : String) : String :=
  if w ≤ s.length then s else s ++ String.mk (List.replicate (w - s.length) ' ')

/-- Python single-character repetition, c * n; n comes from Int arithmetic
in the source, and a non-positive count yields the empty string. -/
def pyRepeat (c : Char) (n : Int) : String :=
  String.mk (List.replicate n.toNat c)

/-- Python slice s[:-1] (drop the final character). -/
def pyDropRight1 (s : String) : String :=
  String.mk s.data.dropLast

/-- Python slice s[:n] (keep the first n characters). -/
def pyTake (n : Nat) (s : String) : String :=
  String.mk (s.data.take n)

/-- Model of CPython fixed-point formatting with one digit after the point,
as in a .1f format spec, applied to a rational reading.  The scaled value is
rounded to an integer number of tenths and printed as intpart, a point and
one decimal digit.  (Binary floating-point tie-breaking artifacts are outside
the model; no claim depends on them.) -/
def fixed1Scaled (q : ℚ) : Int := round (10 * q)

/-- Integer part (with sign) of the one-decimal rendering of q. -/
def fixed1IntPart (q : ℚ) : String :=
  if fixed1Scaled q < 0 then "-" ++ Nat.repr ((fixed1Scaled q).natAbs / 10)
  else Nat.repr ((fixed1Scaled q).natAbs / 10)

/-- The single digit after the point of the one-decimal rendering of q. -/
def fixed1Digit (q : ℚ) : Nat := (fixed1Scaled q).natAbs % 10

/-- One-decimal fixed-point rendering of q, the .1f format spec. -/
def formatFixed1 (q : ℚ) : String :=
  fixed1IntPart q ++ "." ++ Nat.repr (fixed1Digit q)

/-- Model of CPython fixed-point formatting with two digits after the point,
the .2f format spec (used by load-average rendering). -/
def formatFixed2 (q : ℚ) : String :=
  let n : Int := round (100 * q)
  let sign : String := if n < 0 then "-" else ""
  let frac : Nat := n.natAbs % 100
  sign ++ Nat.repr (n.natAbs / 100) ++ "." ++
    (if frac < 10 then "0" ++ Nat.repr frac else Nat.repr frac)

/-! ### Screen operations

Panel draw methods write strings and colour spans into a curses window via
Displayable.addstr / color_at / color / color_reset.  A draw pass is modelled
as the list of those calls in program order. -/

/-- One screen operation issued during a draw pass. -/
inductive DrawOp where
  /-- addstr(y, x, s) -/
  | addstr (y x : Int) (s : String)
  /-- addstr(y, x, s, attr) with an attribute computed by get_fg_bg_attr -/
  | addstrAttr (y x : Int) (s : String) (attr : String)
  /-- color_at(y, x, width, fg, attr) -/
  | colorAt (y x w : Int) (fg : String) (attr : String)
  /-- color(fg) -/
  | color (fg : String)
  /-- color_reset() -/
  | colorReset
deriving DecidableEq, Repr

/-- True when the operation writes text whose leftmost column is c. -/
def DrawOp.writesAtX (op : DrawOp) (c : Int) : Prop :=
  match op with
  | .addstr _ x _ => x = c
  | .addstrAttr _ x _ _ => x = c
  | _ => False

instance (op : DrawOp) (c : Int) : Decidable (op.writesAtX c) := by
  cases op <;> simp [DrawOp.writesAtX] <;> infer_instance

/-- Ops for a Python loop "for y, line in enumerate(lines, start=y0):
addstr(y, x0, line)". -/
def blitOps (y0 x0 : Int) (lines : List String) : List DrawOp :=
  lines.enum.map (fun il => DrawOp.addstr (y0 + il.1) x0 il.2)

namespace Nvitop

/-! ### Model of src/nvitop/gui/screens/main/host.py -/

/-- Runtime state of one BufferedHistoryGraph owned by the panel.  The class
itself lives in nvitop.gui.library (outside the repository excerpt); the
panel code reads and writes exactly these aspects of it: its current width,
the samples pushed through add, the rendered graph rows, the latest value,
and its str() summary.  Graph rows and the str() text are data produced by
the library renderer and enter the model as plain fields. -/
structure HistBuf where
  width : Int
  samples : List ℚ
  graph : List String
  last_value : Option ℚ
  strRepr : String
deriving DecidableEq, Repr

/-- BufferedHistoryGraph.add(value): push one sample. -/
def HistBuf.add (b : HistBuf) (v : ℚ) : HistBuf :=
  { b with samples := b.samples ++ [v], last_value := some v }

/-- Constructor arguments of a BufferedHistoryGraph as passed by
HostPanel.enable_history.  NA-capable values are Option ℚ and the label
formatter maps the latest value to its caption string. -/
structure BufferedHistoryGraphArgs where
  interval : ℚ
  width : Nat
  height : Nat
  upsidedown : Bool
  baseline : ℚ
  upperbound : ℚ
  dynamic_bound : Bool
  format : ℚ → String

/-- The device.snapshot attributes read by HostPanel.take_snapshots; NA is
none. -/
structure DeviceSnap where
  memory_used : Option ℚ
  memory_total : Option ℚ
  gpu_utilization : Option ℚ
deriving DecidableEq, Repr

/-- A device as seen from HostPanel: its cached snapshot plus the two
per-device history buffers that enable_history installed on it. -/
structure DeviceM where
  snap : DeviceSnap
  memory_percent : HistBuf
  gpu_utilization : HistBuf
deriving DecidableEq, Repr

/-- State of a HostPanel (including the Displayable attributes the methods
in host.py read: visible, ascii, need_redraw, x, y and the win handle,
modelled by winPresent).  The snapshot daemon thread object is modelled by
startCount, the number of times Thread.start was invoked on it, and
daemonRunning models the threading.Event _daemon_running. -/
structure HostPanel where
  devices : List DeviceM
  _compact : Bool
  ascii : Bool
  visible : Bool
  need_redraw : Bool
  winPresent : Bool
  _width : Int
  height : Int
  compact_height : Int
  full_height : Int
  x : Int
  y : Int
  average_memory_percent : HistBuf
  average_gpu_utilization : HistBuf
  cpu_percent : Option ℚ
  memory_percent : Option ℚ
  swap_percent : Option ℚ
  load_average : Option (ℚ × ℚ × ℚ)
  daemonRunning : Bool
  startCount : Nat
  term256 : Bool
  selected : Option DeviceM

/-- The compact property getter: self._compact or self.ascii. -/
def HostPanel.compact (p : HostPanel) : Bool := p._compact || p.ascii

/-- The width property setter (host.py lines 55-68).  Clamps to at least 79;
on an actual change it marks the panel dirty when visible and, when a curses
window exists, pushes the new graph width max(width - 80, 20) into the two
average buffers and both history buffers of every device; finally stores the
clamped width. -/
def HostPanel.setWidth (p : HostPanel) (value : Int) : HostPanel :=
  let width := max 79 value
  if p._width ≠ width then
    let p1 := if p.visible then { p with need_redraw := true } else p
    let graph_width := max (width - 80) 20
    let p2 :=
      if p.winPresent then
        { p1 with
          average_memory_percent := { p1.average_memory_percent with width := graph_width }
          average_gpu_utilization := { p1.average_gpu_utilization with width := graph_width }
          devices := p1.devices.map (fun d =>
            { d with
              memory_percent := { d.memory_percent with width := graph_width }
              gpu_utilization := { d.gpu_utilization with width := graph_width } }) }
      else p1
    { p2 with _width := width }
  else { p with _width := width }

/-- The compact property setter (host.py lines 74-80).  The assigned value
is first or-ed with self.ascii; only when it differs from the stored
_compact does the panel mark itself dirty, store it, and recompute height
from the compact property. -/
def HostPanel.setCompact (p : HostPanel) (value : Bool) : HostPanel :=
  let value := value || p.ascii
  if p._compact ≠ value then
    let p1 := { p with need_redraw := true, _compact := value }
    { p1 with height := if p1.compact then p1.compact_height else p1.full_height }
  else p

/-- The BufferedHistoryGraph constructed for host.cpu_percent by
HostPanel.enable_history (host.py lines 83-92); the format callable is
'CPU: \x7b:.1f\x7d%'.format, modelled through formatFixed1. -/
def enableHistoryCpuArgs : BufferedHistoryGraphArgs where
  interval := 1
  width := 77
  height := 5
  upsidedown := false
  baseline := 0
  upperbound := 100
  dynamic_bound := false
  format := fun x => "CPU: " ++ formatFixed1 x ++ "%"

/-- External readings consumed by HostPanel.take_snapshots and
HostPanel.draw: the global host metric samplers and the rendering output of
the three global host history buffers, plus the library callables make_bar,
Device.color_of and get_fg_bg_attr, which are outside the repository
excerpt. -/
structure HWorld where
  cpuLast : Option ℚ
  memLast : Option ℚ
  swapLast : Option ℚ
  loadAvg : Option (ℚ × ℚ × ℚ)
  cpuGraph : List String
  memGraph : List String
  swapGraph : List String
  cpuHistStr : String
  memHistStr : String
  swapHistStr : String
  makeBar : String → Option ℚ → Int → String
  colorOf : Option ℚ → String → String
  fgAttr : ℚ → String

/-- HostPanel.take_snapshots (host.py lines 166-191).  Samples the global
host metrics, then walks the devices once, accumulating memory totals over
devices whose used and total are both non-NA and collecting the non-NA GPU
utilizations; the average-memory sample is pushed only for a positive memory
total and the average-utilization sample only when at least one utilization
was collected. -/
def HostPanel.takeSnapshots (w : HWorld) (p : HostPanel) : HostPanel :=
  let p := { p with
    load_average := w.loadAvg
    cpu_percent := w.cpuLast
    memory_percent := w.memLast
    swap_percent := w.swapLast }
  let acc := p.devices.foldl
    (fun (acc : ℚ × ℚ × List ℚ) d =>
      let acc :=
        match d.snap.memory_used, d.snap.memory_total with
        | some u, some t => (acc.1 + u, acc.2.1 + t, acc.2.2)
        | _, _ => acc
      match d.snap.gpu_utilization with
      | some g => (acc.1, acc.2.1, acc.2.2 ++ [g])
      | none => acc)
    (0, 0, [])
  let p :=
    if (0 : ℚ) < acc.2.1 then
      { p with average_memory_percent :=
          p.average_memory_percent.add (100 * acc.1 / acc.2.1) }
    else p
  if (0 : ℕ) < acc.2.2.length then
    { p with average_gpu_utilization :=
        p.average_gpu_utilization.add (acc.2.2.sum / (acc.2.2.length : ℚ)) }
  else p

/-- The used-memory and total-memory pairs of the devices whose snapshot
reports both values as non-NA (specification-side reading of the filter in
take_snapshots). -/
def HostPanel.memPairs (p : HostPanel) : List (ℚ × ℚ) :=
  p.devices.filterMap (fun d =>
    match d.snap.memory_used, d.snap.memory_total with
    | some u, some t => some (u, t)
    | _, _ => none)

/-- The non-NA GPU utilizations of the devices (specification-side reading
of the filter in take_snapshots). -/
def HostPanel.utilList (p : HostPanel) : List ℚ :=
  p.devices.filterMap (fun d => d.snap.gpu_utilization)

/-- Observable effects of one HostPanel.poke call. -/
inductive HostAct where
  | setFlag
  | startThread
  | syncSnapshot
  | superPoke
deriving DecidableEq, Repr

/-- HostPanel.poke (host.py lines 237-243).  When the daemon-running event
is not set: set it, start the daemon thread, and take one synchronous round
of snapshots; in every case delegate to Displayable.poke.  Returns the new
state and the actions performed, in program order. -/
def HostPanel.poke (w : HWorld) (p : HostPanel) : HostPanel × List HostAct :=
  if p.daemonRunning = false then
    let p1 := { p with daemonRunning := true, startCount := p.startCount + 1 }
    (p1.takeSnapshots w,
     [HostAct.setFlag, HostAct.startThread, HostAct.syncSnapshot, HostAct.superPoke])
  else (p, [HostAct.superPoke])

/-- State reached after one poke call (dropping the action trace). -/
def HostPanel.pokeState (w : HWorld) (p : HostPanel) : HostPanel :=
  (p.poke w).1

/-- HostPanel.destroy (host.py lines 351-353): after Displayable.destroy,
clear the daemon-running event. -/
def HostPanel.destroy (p : HostPanel) : HostPanel :=
  { p with daemonRunning := false }

/-- The 79-column content row of the full-mode frame. -/
def hostDataLine79 : String :=
  "│                                                                             │"

/-- The 79-column separator row of the full-mode frame, with the time-scale
tick labels. -/
def hostSepLine79 : String :=
  "├────────────╴120s├─────────────────────────╴60s├──────────╴30s├──────────────┤"

/-- The 79-column top rule of the full-mode frame. -/
def hostTopLine79 : String :=
  "╞═══════════════════════════════╧══════════════════════╧══════════════════════╡"

/-- The 79-column bottom rule of the full-mode frame. -/
def hostBottomLine79 : String :=
  "╘" ++ pyRepeat '═' 77 ++ "╛"

/-- HostPanel.frame_lines with its default compact=None argument (host.py
lines 199-235).  Compact or ascii mode yields no frame; otherwise the 13
rows are produced, and at a width of at least 100 every row is widened to
the full width: content rows gain trailing blanks and a right border, and
the three rules gain a junction character followed by a horizontal run. -/
def HostPanel.frameLines (p : HostPanel) : List String :=
  if p.compact || p.ascii then []
  else
    let remaining_width := p._width - 79
    let data_line :=
      if p._width ≥ 100 then hostDataLine79 ++ pyRepeat ' ' (remaining_width - 1) ++ "│"
      else hostDataLine79
    let separator_line :=
      if p._width ≥ 100 then
        pyDropRight1 hostSepLine79 ++ "┼" ++ pyRepeat '─' (remaining_width - 1) ++ "┤"
      else hostSepLine79
    let top_line :=
      if p._width ≥ 100 then
        pyDropRight1 hostTopLine79 ++ "╪" ++ pyRepeat '═' (remaining_width - 1) ++ "╡"
      else hostTopLine79
    let bottom_line :=
      if p._width ≥ 100 then
        pyDropRight1 hostBottomLine79 ++ "╧" ++ pyRepeat '═' (remaining_width - 1) ++ "╛"
      else hostBottomLine79
    [top_line, data_line, data_line, data_line, data_line, data_line,
     separator_line, data_line, data_line, data_line, data_line, data_line,
     bottom_line]

/-- The narrow (below 100 columns) full-mode frame: thirteen fixed 79-column
rows. -/
def hostNarrowFrame : List String :=
  [hostTopLine79, hostDataLine79, hostDataLine79, hostDataLine79,
   hostDataLine79, hostDataLine79, hostSepLine79, hostDataLine79,
   hostDataLine79, hostDataLine79, hostDataLine79, hostDataLine79,
   hostBottomLine79]

/-- First row of the frame (its top rule), for stating junction facts. -/
def HostPanel.frameTop (p : HostPanel) : String :=
  (p.frameLines).headD ""

/-- The string 'Load Average: a b c' rendered by HostPanel.draw: each value
formats through a 5.2f field truncated to five characters, values of at
least 10000 print as 9999+, and a missing load average prints three N/A
markers. -/
def loadAverageString (la : Option (ℚ × ℚ × ℚ)) : String :=
  match la with
  | none => "Load Average: N/A N/A N/A"
  | some (a, b, c) =>
    let f := fun v : ℚ =>
      if v < 10000 then pyTake 5 (pyRjust 5 (formatFixed2 v)) else "9999+"
    "Load Average: " ++ f a ++ " " ++ f b ++ " " ++ f c

/-- The ruler labels written at row y+5 in the wide layout, with their
right-edge offsets (host.py lines 283-288). -/
def hostRulerTags : List (Int × String) :=
  [(20, "╴30s├"), (35, "╴60s├"), (66, "╴120s├"), (126, "╴240s├")]

/-- Ops of the wide-layout ruler loop: labels are taken until the first
offset beyond the remaining width (the loop breaks there), and each label is
written at x + width - offset with a dim colour span over its interior. -/
def hostRulerOps (p : HostPanel) (remaining_width : Int) : List DrawOp :=
  (hostRulerTags.takeWhile (fun os => !(os.1 > remaining_width))).flatMap
    (fun os =>
      [DrawOp.addstr (p.y + 5) (p.x + p._width - os.1) os.2,
       DrawOp.colorAt (p.y + 5) (p.x + p._width - os.1 + 1)
         ((os.2.length : Int) - 2) "" "dim"])

/-- HostPanel.draw (host.py lines 245-349) as the list of screen operations
it issues, in program order.  The compact branch draws the three single-line
bars and returns; the full branch draws the frame when dirty (plus the extra
ruler labels at width at least 100), then the three host graphs at column
x+1, and, only at width at least 100, the side graph pair at column x+79
(the selected device's buffers when more than one device exists and a
process is selected, otherwise the average buffers) followed by the caption
strings. -/
def HostPanel.draw (w : HWorld) (p : HostPanel) : List DrawOp :=
  let load_average := loadAverageString p.load_average
  if p.compact then
    let width_right : Int := (load_average.length : Int) + 4
    let width_left : Int := p._width - 2 - width_right
    let cpu_bar := "[ " ++ w.makeBar "CPU" p.cpu_percent (width_left - 4) ++ " ]"
    let memory_bar := "[ " ++ w.makeBar "MEM" p.memory_percent (width_left - 4) ++ " ]"
    let swap_bar := "[ " ++ w.makeBar "SWP" p.swap_percent (width_right - 4) ++ " ]"
    [DrawOp.colorReset,
     DrawOp.addstr p.y p.x (cpu_bar ++ "  ( " ++ load_average ++ " )"),
     DrawOp.addstr (p.y + 1) p.x (memory_bar ++ "  " ++ swap_bar),
     DrawOp.colorAt p.y p.x (cpu_bar.length : Int) "cyan" "bold",
     DrawOp.colorAt (p.y + 1) p.x width_left "magenta" "bold",
     DrawOp.colorAt p.y (p.x + width_left + 2) width_right "" "bold",
     DrawOp.colorAt (p.y + 1) (p.x + width_left + 2) width_right "blue" "bold"]
  else
    let remaining_width := p._width - 79
    let frameOps :=
      if p.need_redraw then
        blitOps (p.y - 1) p.x p.frameLines ++
        [DrawOp.colorAt (p.y + 5) (p.x + 14) 4 "" "dim",
         DrawOp.colorAt (p.y + 5) (p.x + 45) 3 "" "dim",
         DrawOp.colorAt (p.y + 5) (p.x + 60) 3 "" "dim"] ++
        (if p._width ≥ 100 then hostRulerOps p remaining_width else [])
      else []
    let hostGraphOps :=
      [DrawOp.color "cyan"] ++ blitOps p.y (p.x + 1) w.cpuGraph ++
      [DrawOp.color "magenta"] ++ blitOps (p.y + 6) (p.x + 1) w.memGraph ++
      [DrawOp.color "blue"] ++ blitOps (p.y + 10) (p.x + 1) w.swapGraph
    let sideOps :=
      if p._width ≥ 100 then
        let sel := if p.devices.length > 1 then p.selected else none
        let memory_percent :=
          match sel with
          | some d => d.memory_percent
          | none => p.average_memory_percent
        let gpu_utilization :=
          match sel with
          | some d => d.gpu_utilization
          | none => p.average_gpu_utilization
        let graphPairOps :=
          if p.term256 then
            memory_percent.graph.enum.map (fun il =>
              DrawOp.addstrAttr (p.y + il.1) (p.x + 79) il.2
                (w.fgAttr (1 - (il.1 : ℚ) / 4))) ++
            gpu_utilization.graph.enum.map (fun il =>
              DrawOp.addstrAttr (p.y + 6 + il.1) (p.x + 79) il.2
                (w.fgAttr ((il.1 : ℚ) / 4)))
          else
            [DrawOp.color (w.colorOf memory_percent.last_value "memory")] ++
            blitOps p.y (p.x + 79) memory_percent.graph ++
            [DrawOp.color (w.colorOf gpu_utilization.last_value "gpu")] ++
            blitOps (p.y + 6) (p.x + 79) gpu_utilization.graph
        graphPairOps ++
        [DrawOp.colorReset,
         DrawOp.addstr p.y (p.x + 1) (" " ++ load_average ++ " "),
         DrawOp.addstr (p.y + 1) (p.x + 1) (" " ++ w.cpuHistStr ++ " "),
         DrawOp.addstr (p.y + 9) (p.x + 1) (" " ++ w.memHistStr ++ " "),
         DrawOp.addstr (p.y + 10) (p.x + 1) (" " ++ w.swapHistStr ++ " "),
         DrawOp.addstr p.y (p.x + 79) (" " ++ memory_percent.strRepr ++ " "),
         DrawOp.addstr (p.y + 10) (p.x + 79) (" " ++ gpu_utilization.strRepr ++ " ")]
      else []
    [DrawOp.colorReset] ++ frameOps ++ hostGraphOps ++ sideOps

/-! ### The snapshot daemon of HostPanel as a transition system

HostPanel._snapshot_target (host.py lines 193-197) is
"wait for the event; while the event is set: take_snapshots; sleep".  Its
control state is one of: parked in wait, at the top-of-loop check, inside
take_snapshots (a sample in flight), parked in sleep, or exited.  A step of
the daemon advances one of those program points; flag is the
_daemon_running event, and pushes counts completed take_snapshots rounds.
Teardown interleavings are captured by starting the daemon from an arbitrary
control state with the flag already cleared. -/

/-- Program points of _snapshot_target. -/
inductive DaemonPC where
  | waiting
  | check
  | sampling
  | sleeping
  | done
deriving DecidableEq, Repr

/-- Daemon configuration: program point, the _daemon_running flag, and the
number of completed sampling rounds. -/
structure DaemonState where
  pc : DaemonPC
  flag : Bool
  pushes : Nat
deriving DecidableEq, Repr

/-- One step of the daemon thread.  wait returns only once the flag is set;
the loop guard is (re)evaluated at check; a sampling step completes the
in-flight take_snapshots round and moves to the sleep; waking from sleep
returns to the guard; a finished daemon stays finished. -/
def daemonStep (s : DaemonState) : DaemonState :=
  match s.pc, s.flag with
  | DaemonPC.waiting, true => { s with pc := DaemonPC.check }
  | DaemonPC.waiting, false => s
  | DaemonPC.check, true => { s with pc := DaemonPC.sampling }
  | DaemonPC.check, false => { s with pc := DaemonPC.done }
  | DaemonPC.sampling, _ => { s with pc := DaemonPC.sleeping, pushes := s.pushes + 1 }
  | DaemonPC.sleeping, _ => { s with pc := DaemonPC.check }
  | DaemonPC.done, _ => s

/-- The number of further sampling rounds the daemon can still complete once
the flag is clear: one when a sample is in flight, none otherwise. -/
def daemonBudget (pc : DaemonPC) : Nat :=
  match pc with
  | DaemonPC.sampling => 1
  | _ => 0

end Nvitop

namespace Nvhtop

/-! ### Model of src/nvhtop/panel.py -/

/-- The attribute bundle returned by device.snapshot() as consumed by
DevicePanel: all displayed cells pre-rendered as strings by the device
layer, plus the row colour.  The index is an integer. -/
structure NvDeviceSnap where
  index : Nat
  name : String
  fan_speed : String
  temperature : String
  performance_state : String
  power_state : String
  memory_usage : String
  gpu_utilization : String
  compute_mode : String
  persistence_mode : String
  bus_id : String
  display_active : String
  ecc_errors : String
  display_color : String
deriving DecidableEq, Repr

/-- A live device object: snapshot() reads its current attribute values. -/
structure NvDevice where
  cur : NvDeviceSnap
deriving DecidableEq, Repr

/-- device.snapshot(): point-in-time copy of the live attributes. -/
def NvDevice.snapshot (d : NvDevice) : NvDeviceSnap := d.cur

/-- State of a DevicePanel (panel.py lines 18-49), including the Displayable
attributes its methods use. -/
structure DevicePanel where
  devices : List NvDevice
  device_count : Nat
  _compact : Bool
  width : Int
  height : Int
  full_height : Int
  need_redraw : Bool
  x : Int
  y : Int
  driver_version : String
  cuda_version : String
  snapshots : List NvDeviceSnap
deriving DecidableEq, Repr

/-- The DevicePanel compact setter (panel.py lines 55-60): only a changed
value marks the panel dirty, stores the flag, and recomputes the height as
4 + (3 - int(compact)) * (device_count + 1). -/
def DevicePanel.setCompact (p : DevicePanel) (value : Bool) : DevicePanel :=
  if p._compact ≠ value then
    { p with
      need_redraw := true
      _compact := value
      height := 4 + (3 - (if value then (1 : Int) else 0)) * ((p.device_count : Int) + 1) }
  else p

/-- DevicePanel.take_snapshot (panel.py lines 104-106): clear the stored
snapshot list and refill it from the devices' current snapshots. -/
def DevicePanel.takeSnapshot (p : DevicePanel) : DevicePanel :=
  { p with snapshots := p.devices.map NvDevice.snapshot }

/-- The compact device row of formats_compact, built from a snapshot by the
right-aligned format fields of panel.py lines 38-41. -/
def formatCompactRow (s : NvDeviceSnap) : String :=
  "│ " ++ pyRjust 3 (Nat.repr s.index) ++ " " ++ pyRjust 3 s.fan_speed ++ " " ++
  pyRjust 4 s.temperature ++ " " ++ pyRjust 3 s.performance_state ++ " " ++
  pyRjust 12 s.power_state ++ " │ " ++ pyRjust 20 s.memory_usage ++ " │ " ++
  pyRjust 7 s.gpu_utilization ++ "  " ++ pyRjust 11 s.compute_mode ++ " │"

/-- The first full device row of formats_full (panel.py lines 43-44). -/
def formatFullRow1 (s : NvDeviceSnap) : String :=
  "│ " ++ pyRjust 3 (Nat.repr s.index) ++ "  " ++ pyRjust 18 s.name ++ "  " ++
  pyLjust 4 s.persistence_mode ++ " │ " ++ pyLjust 16 s.bus_id ++ " " ++
  pyRjust 3 s.display_active ++ " │ " ++ pyRjust 20 s.ecc_errors ++ " │"

/-- The second full device row of formats_full (panel.py lines 45-46). -/
def formatFullRow2 (s : NvDeviceSnap) : String :=
  "│ " ++ pyRjust 3 s.fan_speed ++ "  " ++ pyRjust 4 s.temperature ++ "  " ++
  pyRjust 4 s.performance_state ++ "  " ++ pyRjust 12 s.power_state ++ " │ " ++
  pyRjust 20 s.memory_usage ++ " │ " ++ pyRjust 7 s.gpu_utilization ++ "  " ++
  pyRjust 11 s.compute_mode ++ " │"

/-- DevicePanel.header_lines (panel.py lines 62-84). -/
def DevicePanel.headerLines (p : DevicePanel) : List String :=
  let header :=
    ["╒" ++ pyRepeat '═' 77 ++ "╕",
     "│ NVIDIA-SMI " ++ pyLjust 6 p.driver_version ++ "       Driver Version: " ++
       pyLjust 6 p.driver_version ++ "       CUDA Version: " ++
       pyLjust 5 p.cuda_version ++ "    │"]
  if p.device_count > 0 then
    header ++
    ["├───────────────────────────────┬──────────────────────┬──────────────────────┤"] ++
    (if p._compact then
      ["│ GPU Fan Temp Perf Pwr:Usg/Cap │         Memory-Usage │ GPU-Util  Compute M. │"]
     else
      ["│ GPU  Name        Persistence-M│ Bus-Id        Disp.A │ Volatile Uncorr. ECC │",
       "│ Fan  Temp  Perf  Pwr:Usage/Cap│         Memory-Usage │ GPU-Util  Compute M. │"]) ++
    ["╞═══════════════════════════════╪══════════════════════╪══════════════════════╡"]
  else
    header ++
    ["╞" ++ pyRepeat '═' 77 ++ "╡",
     "│  No visible CUDA device found                                               │",
     "╘" ++ pyRepeat '═' 77 ++ "╛"]

/-- Blank per-device body row of the DevicePanel frame. -/
def deviceBlankRow : String :=
  "│                               │                      │                      │"

/-- Per-device separator row of the DevicePanel frame. -/
def deviceSepRow : String :=
  "├───────────────────────────────┼──────────────────────┼──────────────────────┤"

/-- Bottom rule of the DevicePanel frame. -/
def deviceBottomRow : String :=
  "╘═══════════════════════════════╧══════════════════════╧══════════════════════╛"

/-- DevicePanel.frame_lines (panel.py lines 86-102): the header, then per
device a group of blank rows and a separator, with the trailing separator
popped and replaced by the bottom rule. -/
def DevicePanel.frameLines (p : DevicePanel) : List String :=
  let frame := p.headerLines
  if p.device_count > 0 then
    let body :=
      (List.replicate p.device_count
        (if p._compact then [deviceBlankRow, deviceSepRow]
         else [deviceBlankRow, deviceBlankRow, deviceSepRow])).flatten
    (frame ++ body).dropLast ++ [deviceBottomRow]
  else frame

/-- External inputs of DevicePanel.draw: the wall-clock string produced by
time.strftime and the cut_string truncation helper from the utils module
(which is outside the repository excerpt). -/
structure NvWorld where
  now : String
  cutString : String → Nat → String

/-- The per-device content rows and colour spans of DevicePanel.draw
(panel.py lines 124-135), computed from the point-in-time snapshots taken
from the live devices during this draw pass.  Each device contributes one
formatted row per format (at rows y + 4 + (len(formats)+1) * (index+1) and
following) and three colour spans per row at absolute columns 2, 34, 57. -/
def deviceRowOpsFromSnaps (w : NvWorld) (compact : Bool) (x y : Int)
    (snaps : List NvDeviceSnap) : List DrawOp :=
  snaps.enum.flatMap (fun isnap =>
    let snap := { isnap.2 with name := w.cutString isnap.2.name 18 }
    let fmts :=
      if compact then [formatCompactRow snap]
      else [formatFullRow1 snap, formatFullRow2 snap]
    fmts.enum.flatMap (fun jf =>
      let yy := y + 4 + ((fmts.length : Int) + 1) * ((isnap.1 : Int) + 1) + (jf.1 : Int)
      [DrawOp.addstr yy x jf.2,
       DrawOp.colorAt yy 2 29 snap.display_color "",
       DrawOp.colorAt yy 34 20 snap.display_color "",
       DrawOp.colorAt yy 57 20 snap.display_color ""]))

/-- DevicePanel.draw (panel.py lines 113-135) as the list of screen
operations it issues: a colour reset, then -- only when the dirty flag is
set -- the quit hint and the full static frame, then always the time string
and the per-device content rows rendered from snapshots taken from the live
devices at draw time. -/
def DevicePanel.draw (w : NvWorld) (p : DevicePanel) : List DrawOp :=
  [DrawOp.colorReset] ++
  (if p.need_redraw then
    [DrawOp.addstr p.y (p.x + 62) "(Press q to Quit)",
     DrawOp.colorAt p.y (p.x + 69) 1 "magenta" "bold | italic"] ++
    blitOps (p.y + 1) p.x p.frameLines
   else []) ++
  [DrawOp.addstr p.y p.x (pyLjust 62 w.now)] ++
  deviceRowOpsFromSnaps w p._compact p.x p.y (p.devices.map NvDevice.snapshot)

/-- DevicePanel.finalize (panel.py lines 137-138): clear the dirty flag. -/
def DevicePanel.finalize (p : DevicePanel) : DevicePanel :=
  { p with need_redraw := false }

/-- One process entry of device.processes as consumed by
ProcessPanel.processes: its pid, the index of the device it runs on, and the
result of p.username() -- none models the call raising a psutil.Error. -/
structure GpuProcess where
  pid : Nat
  deviceIndex : Nat
  username : Option String
deriving DecidableEq, Repr

/-- State of a ProcessPanel as far as the modelled methods read it. -/
structure ProcessPanel where
  devices : List (List GpuProcess)
  need_redraw : Bool
  height : Int
deriving DecidableEq, Repr

/-- ProcessPanel.finalize (panel.py lines 258-259): clear the dirty flag. -/
def ProcessPanel.finalize (p : ProcessPanel) : ProcessPanel :=
  { p with need_redraw := false }

/-- Lexicographic strict comparison of code-point lists, the order Python
uses on str. -/
def listLtb : List Char → List Char → Bool
  | _, [] => false
  | [], _ :: _ => true
  | a :: as, b :: bs => if a < b then true else if b < a then false else listLtb as bs

/-- Python str strict comparison. -/
def strLtb (a b : String) : Bool := listLtb a.data b.data

/-- The key triple (device index, username, pid) of the processes dict. -/
abbrev PKey := Nat × String × Nat

/-- Python tuple comparison key1 <= key2 on the key triples, lexicographic
with numeric order on the indices and pids and code-point order on the
usernames. -/
def pkeyLeb (a b : PKey) : Bool :=
  if a.1 ≠ b.1 then decide (a.1 < b.1)
  else if a.2.1 ≠ b.2.1 then strLtb a.2.1 b.2.1
  else decide (a.2.2 ≤ b.2.2)

/-- Python tuple comparison key1 < key2 (strict) on the key triples. -/
def pkeyLtb (a b : PKey) : Bool :=
  if a.1 ≠ b.1 then decide (a.1 < b.1)
  else if a.2.1 ≠ b.2.1 then strLtb a.2.1 b.2.1
  else decide (a.2.2 < b.2.2)

/-- Python dict item insertion: a new key is appended at the end, an
existing key keeps its position and takes the new value. -/
def dictInsert {α : Type} [DecidableEq α] {β : Type} (k : α) (v : β) :
    List (α × β) → List (α × β)
  | [] => [(k, v)]
  | (k', v') :: rest =>
    if k = k' then (k', v) :: rest else (k', v') :: dictInsert k v rest

/-- Python dict built from a stream of key-value pairs: first occurrence
fixes the position, the last value for a key wins. -/
def dictOfList {α : Type} [DecidableEq α] {β : Type} (l : List (α × β)) :
    List (α × β) :=
  l.foldl (fun acc kv => dictInsert kv.1 kv.2 acc) []

/-- The (key, process) pairs fed into the processes dict by
ProcessPanel.processes: every process of every device whose username()
lookup succeeds, keyed by (device index, username, pid); a process whose
lookup raises is skipped. -/
def processEntries (devices : List (List GpuProcess)) :
    List (PKey × GpuProcess) :=
  devices.flatMap (fun ps =>
    ps.filterMap (fun p =>
      p.username.map (fun u => (((p.deviceIndex, u, p.pid) : PKey), p))))

/-- ProcessPanel.processes (panel.py lines 208-218): build the dict keyed by
(device index, username, pid) with failing username lookups skipped, sort
its items by key, and rebuild an OrderedDict keyed by pid alone. -/
def panelProcesses (devices : List (List GpuProcess)) : List (Nat × GpuProcess) :=
  let dict := dictOfList (processEntries devices)
  let sortedItems := List.insertionSort (fun a b => pkeyLeb a.1 b.1) dict
  dictOfList (sortedItems.map (fun e => (e.1.2.2, e.2)))

/-- The key triple recomputed from a returned process (an errored username
reads as the empty string; returned processes always carry a real one). -/
def procKey (p : GpuProcess) : PKey := (p.deviceIndex, p.username.getD "", p.pid)

/-- DevicePanel.__init__ (panel.py lines 19-49): width 79, height
4 + (3 - int(compact)) * (n + 1) with full height 4 + 3 * (n + 1), both 6
when no device is visible; the driver and CUDA version strings come from
the NVML layer.  A fresh Displayable needs a first full redraw. -/
def deviceInit (devices : List NvDevice) (compact : Bool)
    (driver cuda : String) : DevicePanel :=
  let n := devices.length
  { devices := devices
    device_count := n
    _compact := compact
    width := 79
    height := if n = 0 then 6 else 4 + (3 - (if compact then (1 : Int) else 0)) * ((n : Int) + 1)
    full_height := if n = 0 then 6 else 4 + 3 * ((n : Int) + 1)
    need_redraw := true
    x := 0
    y := 0
    driver_version := driver
    cuda_version := cuda
    snapshots := [] }

end Nvhtop

namespace Nvitop

/-- A BufferedHistoryGraph right after construction, before any sample. -/
def emptyHistBuf (w : Int) : HistBuf :=
  { width := w, samples := [], graph := [], last_value := none, strRepr := "" }

/-- HostPanel.__init__ (host.py lines 25-49): stores the devices, enables
history when a curses window exists (the average buffers are created with
widths 20 and 32), stores the compact flag, clamps the width to at least 79
of the root width, sets full_height 12 and compact_height 2 and the height
according to the compact argument, and leaves the snapshot daemon created
but not armed.  A fresh Displayable needs a first full redraw. -/
def hostInit (devices : List DeviceM) (compact : Bool) (winPresent : Bool)
    (ascii : Bool) (rootWidth : Int) : HostPanel :=
  { devices := devices
    _compact := compact
    ascii := ascii
    visible := true
    need_redraw := true
    winPresent := winPresent
    _width := max 79 rootWidth
    height := if compact then 2 else 12
    compact_height := 2
    full_height := 12
    x := 0
    y := 0
    average_memory_percent := emptyHistBuf 20
    average_gpu_utilization := emptyHistBuf 32
    cpu_percent := none
    memory_percent := none
    swap_percent := none
    load_average := none
    daemonRunning := false
    startCount := 0
    term256 := false
    selected := none }

/-! ### Concrete fixtures for witnesses and counterexamples -/

/-- A fixed external world for witness instantiations. -/
def hw0 : HWorld :=
  { cpuLast := some 25
    memLast := some 50
    swapLast := some 0
    loadAvg := some (1, 2, 3)
    cpuGraph := ["c"]
    memGraph := ["m"]
    swapGraph := ["s"]
    cpuHistStr := "CPU: 25.0%"
    memHistStr := "MEM: 50.0%"
    swapHistStr := "SWP: 0.0%"
    makeBar := fun _ _ _ => ""
    colorOf := fun _ _ => "green"
    fgAttr := fun _ => "attr" }

/-- A device whose snapshot carries full readings. -/
def devFull : DeviceM :=
  { snap := { memory_used := some 30, memory_total := some 120, gpu_utilization := some 40 }
    memory_percent := emptyHistBuf 20
    gpu_utilization := emptyHistBuf 20 }

/-- A fresh single-device host panel fixture. -/
def hostP0 : HostPanel := hostInit [devFull] false true false 79

end Nvitop

namespace Nvhtop

/-- A device snapshot fixture. -/
def snapA : NvDeviceSnap :=
  { index := 0, name := "GPU-A", fan_speed := "30%", temperature := "40C"
    performance_state := "P0", power_state := "30W / 250W"
    memory_usage := "1MiB / 11MiB", gpu_utilization := "7%"
    compute_mode := "Default", persistence_mode := "Off", bus_id := "00:01.0"
    display_active := "Off", ecc_errors := "N/A", display_color := "green" }

/-- The same device a moment later: only the fan speed moved. -/
def snapB : NvDeviceSnap := { snapA with fan_speed := "99%" }

/-- A fixed external world for the nvhtop draw model. -/
def nvW0 : NvWorld := { now := "Mon Jan 01 00:00:00 2026", cutString := fun s _ => s }

/-- A compact one-device panel whose stored snapshot list is [snapA] and
whose live device currently reads snapA. -/
def devP1 : DevicePanel :=
  { deviceInit [{ cur := snapA }] true "510.0" "11.6" with
      need_redraw := false, snapshots := [snapA] }

/-- The same panel after the live device moved on to snapB; the stored
snapshot list still holds [snapA]. -/
def devP2 : DevicePanel := { devP1 with devices := [{ cur := snapB }] }

/-- Process-table fixture: pid 5 appears on devices 0 and 2 under two
usernames, pid 7 on device 1. -/
def procsDup : List (List GpuProcess) :=
  [[{ pid := 5, deviceIndex := 0, username := some "alice" }],
   [{ pid := 7, deviceIndex := 1, username := some "carol" }],
   [{ pid := 5, deviceIndex := 2, username := some "bob" }]]

/-- Process-table fixture with pairwise distinct pids, one lookup failing. -/
def procsOk : List (List GpuProcess) :=
  [[{ pid := 7, deviceIndex := 0, username := some "alice" },
    { pid := 9, deviceIndex := 0, username := none }],
   [{ pid := 5, deviceIndex := 1, username := some "bob" }]]

end Nvhtop

open Nvitop Nvhtop

/-! ### Helper lemmas -/

theorem takeSnapshots_daemon_fields (w : HWorld) (p : HostPanel) :
    (p.takeSnapshots w).daemonRunning = p.daemonRunning
    ∧ (p.takeSnapshots w).startCount = p.startCount := by
  unfold HostPanel.takeSnapshots
  dsimp only
  split <;> split <;> simp

theorem daemonStep_flag (s : DaemonState) : (daemonStep s).flag = s.flag := by
  unfold daemonStep
  rcases s with ⟨pc, flag, n⟩
  cases pc <;> cases flag <;> rfl

theorem daemonStep_budget (s : DaemonState) (h : s.flag = false) :
    (daemonStep s).pushes + daemonBudget (daemonStep s).pc
      ≤ s.pushes + daemonBudget s.pc := by
  unfold daemonStep daemonBudget
  rcases s with ⟨pc, flag, n⟩
  cases h
  cases pc <;> simp

theorem daemonStep_done (s : DaemonState) (h : s.pc = DaemonPC.done) :
    daemonStep s = s := by
  unfold daemonStep
  rcases s with ⟨pc, flag, n⟩
  cases h
  cases flag <;> rfl

/-! ### Claim C1 -/

/-- C1: calling HostPanel.poke any number of times arms and starts the
background snapshot daemon exactly once.  The first call (daemon-running
event not set) sets the flag, performs exactly the arming action sequence
(set flag, start thread, one synchronous snapshot round, delegate upward)
and increments the thread-start count; any call that finds the flag set
performs no arming action and leaves the state untouched; hence any number
of successive pokes from a fresh panel start the daemon thread exactly
once. -/
theorem poke_arms_daemon_exactly_once (w : HWorld) (p : HostPanel)
    (h : p.daemonRunning = false) :
    ((p.poke w).2 = [HostAct.setFlag, HostAct.startThread,
        HostAct.syncSnapshot, HostAct.superPoke]
      ∧ (p.poke w).1.daemonRunning = true
      ∧ (p.poke w).1.startCount = p.startCount + 1)
    ∧ (∀ q : HostPanel, q.daemonRunning = true → q.poke w = (q, [HostAct.superPoke]))
    ∧ (∀ n : ℕ, ((HostPanel.pokeState w)^[n + 1] p).startCount = p.startCount + 1
        ∧ ((HostPanel.pokeState w)^[n + 1] p).daemonRunning = true) := by
  have hlater : ∀ q : HostPanel, q.daemonRunning = true →
      q.poke w = (q, [HostAct.superPoke]) := by
    intro q hq
    unfold HostPanel.poke
    rw [hq]
    simp
  have hstable : ∀ q : HostPanel, q.daemonRunning = true →
      HostPanel.pokeState w q = q := by
    intro q hq
    unfold HostPanel.pokeState
    rw [hlater q hq]
  have hfirst : (p.poke w).2 = [HostAct.setFlag, HostAct.startThread,
      HostAct.syncSnapshot, HostAct.superPoke]
      ∧ (p.poke w).1.daemonRunning = true
      ∧ (p.poke w).1.startCount = p.startCount + 1 := by
    unfold HostPanel.poke
    rw [h]
    simp only [eq_self_iff_true, if_true]
    refine ⟨by trivial, ?_, ?_⟩
    · rw [(takeSnapshots_daemon_fields w _).1]
    · rw [(takeSnapshots_daemon_fields w _).2]
  refine ⟨hfirst, hlater, ?_⟩
  intro n
  induction n with
  | zero =>
    exact ⟨hfirst.2.2, hfirst.2.1⟩
  | succ k ih =>
    rw [Function.iterate_succ_apply', hstable _ ih.2]
    exact ih

/-- C1 witness at a concrete fresh panel. -/
theorem poke_arms_daemon_exactly_once_witness :
    ((hostP0.poke hw0).2 = [HostAct.setFlag, HostAct.startThread,
        HostAct.syncSnapshot, HostAct.superPoke]
      ∧ (hostP0.poke hw0).1.daemonRunning = true
      ∧ (hostP0.poke hw0).1.startCount = hostP0.startCount + 1) :=
  (poke_arms_daemon_exactly_once hw0 hostP0 (by decide)).1

/-! ### Claim C2 -/

/-- C2: HostPanel.destroy clears the daemon-running flag, and the
_snapshot_target loop re-evaluates that flag at the top of each iteration:
from any daemon configuration in which the flag is clear, at most one
further sampling round completes (exactly the in-flight one when the daemon
is inside take_snapshots, none otherwise); at the guard with the flag clear
the loop exits at once, and a finished daemon never samples again. -/
theorem destroy_stops_daemon :
    (∀ p : HostPanel, p.destroy.daemonRunning = false)
    ∧ (∀ s : DaemonState, s.flag = false →
        ∀ n : ℕ, (daemonStep^[n] s).pushes ≤ s.pushes + daemonBudget s.pc)
    ∧ (∀ s : DaemonState, s.flag = false → s.pc = DaemonPC.check →
        daemonStep s = { s with pc := DaemonPC.done })
    ∧ (∀ s : DaemonState, s.pc = DaemonPC.done →
        ∀ n : ℕ, (daemonStep^[n] s).pushes = s.pushes) := by
  refine ⟨fun p => rfl, ?_, ?_, ?_⟩
  · have key : ∀ (n : ℕ) (s : DaemonState), s.flag = false →
        (daemonStep^[n] s).pushes + daemonBudget (daemonStep^[n] s).pc
          ≤ s.pushes + daemonBudget s.pc := by
      intro n
      induction n with
      | zero => intro s _; rfl
      | succ k ih =>
        intro s hs
        rw [Function.iterate_succ_apply]
        exact le_trans (ih _ (by rw [daemonStep_flag]; exact hs))
          (daemonStep_budget s hs)
    intro s hs n
    exact le_trans (Nat.le_add_right _ _) (key n s hs)
  · intro s hs hc
    rcases s with ⟨pc, flag, n⟩
    cases hs
    cases hc
    rfl
  · intro s hs n
    induction n with
    | zero => rfl
    | succ k ih =>
      rw [Function.iterate_succ_apply, daemonStep_done s hs]
      exact ih

/-- C2 witness: a panel being destroyed, and a daemon caught mid-sample with
the flag already cleared pushes at most one more round over any horizon. -/
theorem destroy_stops_daemon_witness :
    hostP0.destroy.daemonRunning = false
    ∧ (daemonStep^[9] { pc := DaemonPC.sampling, flag := false, pushes := 3 }).pushes
        ≤ 3 + daemonBudget DaemonPC.sampling :=
  ⟨destroy_stops_daemon.1 hostP0,
   destroy_stops_daemon.2.1 { pc := DaemonPC.sampling, flag := false, pushes := 3 } rfl 9⟩

/-! ### Claim C10 -/

/-- C10 counterexample: the claim fails on HostPanel because the compact
setter first ors the assigned value with the ascii flag.  For a panel with
ascii set and _compact stored as false, the compact property currently
reads true, yet assigning that same current value true changes the panel:
the height is recomputed (12 to 2) and the dirty flag set. -/
theorem compact_setter_cex :
    (hostInit [] false true true 79).compact = true
    ∧ ((hostInit [] false true true 79).setCompact true).height
        ≠ (hostInit [] false true true 79).height
    ∧ ((hostInit [] false true true 79).setCompact true)._compact
        ≠ (hostInit [] false true true 79)._compact := by
  refine ⟨rfl, ?_, ?_⟩ <;> decide

/-- C10 (amended): assigning DevicePanel.compact its stored value is a
strict no-op, and a changed value sets need_redraw, stores the flag and
recomputes height as 4 + (3 - int(compact)) * (device_count + 1), touching
no other field.  For HostPanel the assigned value is first or-ed with the
ascii flag and compared against the stored _compact (so when ascii is
clear this is exactly the claim's behaviour, and assigning the current
property value while ascii is set and _compact clear does rewrite state):
an unchanged effective value is a strict no-op, a changed one sets
need_redraw and recomputes height as the panel's compact_height (2, as set
by the constructor) in compact mode and full_height (12) in full mode,
touching no other field. -/
theorem compact_setter_effect :
    (∀ (p : DevicePanel) (v : Bool), v = p._compact → p.setCompact v = p)
    ∧ (∀ (p : DevicePanel) (v : Bool), v ≠ p._compact →
        p.setCompact v =
          { p with need_redraw := true, _compact := v,
                   height := 4 + (3 - (if v then (1 : Int) else 0))
                     * ((p.device_count : Int) + 1) })
    ∧ (∀ (p : HostPanel) (v : Bool), (v || p.ascii) = p._compact →
        p.setCompact v = p)
    ∧ (∀ (p : HostPanel) (v : Bool), (v || p.ascii) ≠ p._compact →
        p.setCompact v =
          { p with need_redraw := true, _compact := v || p.ascii,
                   height := if v || p.ascii then p.compact_height else p.full_height })
    ∧ (∀ (ds : List DeviceM) (c wp a : Bool) (rw : Int),
        (hostInit ds c wp a rw).compact_height = 2
        ∧ (hostInit ds c wp a rw).full_height = 12) := by
  refine ⟨?_, ?_, ?_, ?_, fun ds c wp a rw => ⟨rfl, rfl⟩⟩
  · intro p v hv
    unfold DevicePanel.setCompact
    rw [if_neg (by simp [hv])]
  · intro p v hv
    unfold DevicePanel.setCompact
    rw [if_pos (fun hc => hv hc.symm)]
  · intro p v hv
    unfold HostPanel.setCompact
    rw [if_neg (by simp [hv])]
  · intro p v hv
    unfold HostPanel.setCompact
    rw [if_pos (fun hc => hv hc.symm)]
    have hor : ((v || p.ascii) || p.ascii) = (v || p.ascii) := by
      cases v <;> cases p.ascii <;> rfl
    simp only [HostPanel.compact, hor]

/-- C10 witness at concrete panels: an identical assignment is a no-op and
a changed assignment recomputes the height by the stated formulas. -/
theorem compact_setter_effect_witness :
    devP1.setCompact true = devP1
    ∧ devP1.setCompact false =
        { devP1 with need_redraw := true, _compact := false,
                     height := 4 + (3 - (if false then (1 : Int) else 0))
                       * ((devP1.device_count : Int) + 1) }
    ∧ hostP0.setCompact false = hostP0
    ∧ hostP0.setCompact true =
        { hostP0 with need_redraw := true, _compact := true || hostP0.ascii,
                      height := if true || hostP0.ascii then hostP0.compact_height
                        else hostP0.full_height } :=
  ⟨compact_setter_effect.1 devP1 true rfl,
   compact_setter_effect.2.1 devP1 false (by decide),
   compact_setter_effect.2.2.1 hostP0 false rfl,
   compact_setter_effect.2.2.2.1 hostP0 true (by decide)⟩

/-! ### Claim C3 -/

/-- C3 counterexample: the width setter marks the panel dirty only when it
is visible.  A hidden panel whose width changes from 79 to 120 keeps
need_redraw clear, against the claim that any width change sets the dirty
flag. -/
theorem width_setter_cex :
    ((HostPanel.setWidth { hostP0 with visible := false, need_redraw := false } 120)._width
        ≠ { hostP0 with visible := false, need_redraw := false }._width)
    ∧ (HostPanel.setWidth { hostP0 with visible := false, need_redraw := false } 120).need_redraw
        = false := by
  refine ⟨?_, ?_⟩ <;> decide

/-- C3 (amended): assigning the width property a value whose clamp
max(79, value) differs from the stored width stores the clamped width,
sets the dirty flag when the panel is visible (a hidden panel is left
unmarked), and, when a curses window exists, propagates the new graph
width max(width - 80, 20) to every history buffer the panel owns -- the
average memory-percent and average GPU-utilization graphs and both
per-device histories -- before the setter returns (hence before the next
draw). -/
theorem width_setter_propagates (p : HostPanel) (value : Int)
    (h : max 79 value ≠ p._width) :
    (p.setWidth value)._width = max 79 value
    ∧ (p.visible = true → (p.setWidth value).need_redraw = true)
    ∧ (p.visible = false → (p.setWidth value).need_redraw = p.need_redraw)
    ∧ (p.winPresent = true →
        (p.setWidth value).average_memory_percent.width = max (max 79 value - 80) 20
        ∧ (p.setWidth value).average_gpu_utilization.width = max (max 79 value - 80) 20
        ∧ ∀ d ∈ (p.setWidth value).devices,
            d.memory_percent.width = max (max 79 value - 80) 20
            ∧ d.gpu_utilization.width = max (max 79 value - 80) 20) := by
  unfold HostPanel.setWidth
  rw [if_pos (fun hc => h hc.symm)]
  refine ⟨?_, ?_, ?_, ?_⟩
  · cases hv : p.visible <;> cases hw : p.winPresent <;> simp
  · intro hv
    cases hw : p.winPresent <;> simp [hv]
  · intro hv
    cases hw : p.winPresent <;> simp [hv]
  · intro hw
    cases hv : p.visible <;>
      simp only [hw, hv, if_pos, if_true, if_false] <;>
      refine ⟨by trivial, by trivial, ?_⟩ <;>
      · intro d hd
        simp only [List.mem_map] at hd
        obtain ⟨d0, _, rfl⟩ := hd
        exact ⟨rfl, rfl⟩

/-- C3 witness: a visible panel with a window resized from 79 to 120
columns stores width 120 and pushes graph width 40 into its buffers. -/
theorem width_setter_propagates_witness :
    (hostP0.setWidth 120)._width = max 79 120
    ∧ (hostP0.visible = true → (hostP0.setWidth 120).need_redraw = true)
    ∧ (hostP0.winPresent = true →
        (hostP0.setWidth 120).average_memory_percent.width = max (max 79 120 - 80) 20
        ∧ (hostP0.setWidth 120).average_gpu_utilization.width = max (max 79 120 - 80) 20
        ∧ ∀ d ∈ (hostP0.setWidth 120).devices,
            d.memory_percent.width = max (max 79 120 - 80) 20
            ∧ d.gpu_utilization.width = max (max 79 120 - 80) 20) :=
  ⟨(width_setter_propagates hostP0 120 (by decide)).1,
   (width_setter_propagates hostP0 120 (by decide)).2.1,
   (width_setter_propagates hostP0 120 (by decide)).2.2.2⟩

/-! ### Claim C4 -/

theorem natRepr_length_of_lt_ten {d : ℕ} (hd : d < 10) : (Nat.repr d).length = 1 := by
  interval_cases d <;> decide

/-- C4: enable_history creates the host CPU history buffer with width
(capacity) 77, sampling interval 1.0, baseline 0.0, upperbound 100.0,
dynamic bounds disabled, height 5, not upside-down, and a label formatter
that renders 'CPU: ' followed by the value with exactly one digit after
the decimal point and a percent sign. -/
theorem enable_history_cpu_buffer :
    enableHistoryCpuArgs.width = 77
    ∧ enableHistoryCpuArgs.interval = 1
    ∧ enableHistoryCpuArgs.baseline = 0
    ∧ enableHistoryCpuArgs.upperbound = 100
    ∧ enableHistoryCpuArgs.dynamic_bound = false
    ∧ enableHistoryCpuArgs.height = 5
    ∧ enableHistoryCpuArgs.upsidedown = false
    ∧ ∀ q : ℚ,
        enableHistoryCpuArgs.format q
          = "CPU: " ++ (fixed1IntPart q ++ "." ++ Nat.repr (fixed1Digit q)) ++ "%"
        ∧ fixed1Digit q < 10
        ∧ (Nat.repr (fixed1Digit q)).length = 1 := by
  refine ⟨rfl, rfl, rfl, rfl, rfl, rfl, rfl, fun q => ⟨rfl, ?_, ?_⟩⟩
  · exact Nat.mod_lt _ (by norm_num)
  · exact natRepr_length_of_lt_ten (Nat.mod_lt _ (by norm_num))

/-! ### Claim C7 -/

/-- C7: a panel draw writes the static border and frame rows only when the
dirty flag is set, and finalize clears the flag once the frame has been
drawn.  With the flag clear, DevicePanel.draw issues exactly the colour
reset, the dynamic time string and the per-device content rows; with the
flag set it additionally writes the quit hint and every frame line first.
DevicePanel.finalize and ProcessPanel.finalize set need_redraw to false
and touch nothing else. -/
theorem draw_frame_only_when_dirty :
    (∀ p : DevicePanel, p.finalize = { p with need_redraw := false })
    ∧ (∀ q : ProcessPanel, q.finalize = { q with need_redraw := false })
    ∧ (∀ (w : NvWorld) (p : DevicePanel), p.need_redraw = false →
        p.draw w = [DrawOp.colorReset, DrawOp.addstr p.y p.x (pyLjust 62 w.now)]
          ++ deviceRowOpsFromSnaps w p._compact p.x p.y (p.devices.map NvDevice.snapshot))
    ∧ (∀ (w : NvWorld) (p : DevicePanel), p.need_redraw = true →
        p.draw w = [DrawOp.colorReset,
            DrawOp.addstr p.y (p.x + 62) "(Press q to Quit)",
            DrawOp.colorAt p.y (p.x + 69) 1 "magenta" "bold | italic"]
          ++ blitOps (p.y + 1) p.x p.frameLines
          ++ [DrawOp.addstr p.y p.x (pyLjust 62 w.now)]
          ++ deviceRowOpsFromSnaps w p._compact p.x p.y (p.devices.map NvDevice.snapshot)) := by
  refine ⟨fun p => rfl, fun q => rfl, ?_, ?_⟩
  · intro w p h
    unfold DevicePanel.draw
    rw [h]
    simp
  · intro w p h
    unfold DevicePanel.draw
    rw [h]
    simp

/-- C7 witness at a concrete clean panel and a concrete dirty panel. -/
theorem draw_frame_only_when_dirty_witness :
    devP1.draw nvW0 = [DrawOp.colorReset, DrawOp.addstr devP1.y devP1.x (pyLjust 62 nvW0.now)]
      ++ deviceRowOpsFromSnaps nvW0 devP1._compact devP1.x devP1.y
          (devP1.devices.map NvDevice.snapshot)
    ∧ ({ devP1 with need_redraw := true } : DevicePanel).draw nvW0
        = [DrawOp.colorReset,
           DrawOp.addstr devP1.y (devP1.x + 62) "(Press q to Quit)",
           DrawOp.colorAt devP1.y (devP1.x + 69) 1 "magenta" "bold | italic"]
          ++ blitOps (devP1.y + 1) devP1.x ({ devP1 with need_redraw := true } : DevicePanel).frameLines
          ++ [DrawOp.addstr devP1.y devP1.x (pyLjust 62 nvW0.now)]
          ++ deviceRowOpsFromSnaps nvW0 devP1._compact devP1.x devP1.y
              (devP1.devices.map NvDevice.snapshot) :=
  ⟨draw_frame_only_when_dirty.2.2.1 nvW0 devP1 rfl,
   draw_frame_only_when_dirty.2.2.2 nvW0 { devP1 with need_redraw := true } rfl⟩

/-! ### Claim C6 -/

/-- C6 counterexample: DevicePanel.draw does not render from the snapshot
list captured by take_snapshot -- it calls device.snapshot() afresh on each
live device during the draw pass.  Two panel states agreeing on the
captured snapshots (both hold [snapA]) but whose live device moved from
snapA to snapB produce different draw output, refuting the claim that draw
output is a function of the take_snapshot captures. -/
theorem device_draw_snapshot_cex :
    devP1.snapshots = devP2.snapshots
    ∧ devP1.draw nvW0 ≠ devP2.draw nvW0 := by
  refine ⟨rfl, ?_⟩
  decide

/-- C6 (amended): the cells rendered by one DevicePanel.draw pass come from
point-in-time snapshots taken from the live devices during that pass, one
per device, not from the list stored by take_snapshot: draw output is
invariant under any change to the stored snapshot list, and two panel
states that agree on the per-device snapshots taken at draw time (and on
the geometry and header data draw reads) render identically, so one pass is
temporally consistent per device even though live objects may mutate
between passes. -/
theorem device_draw_uses_draw_time_snapshots :
    (∀ (w : NvWorld) (p : DevicePanel) (s : List NvDeviceSnap),
        DevicePanel.draw w { p with snapshots := s } = p.draw w)
    ∧ (∀ (w : NvWorld) (p1 p2 : DevicePanel),
        p1.devices.map NvDevice.snapshot = p2.devices.map NvDevice.snapshot →
        p1._compact = p2._compact → p1.need_redraw = p2.need_redraw →
        p1.x = p2.x → p1.y = p2.y → p1.device_count = p2.device_count →
        p1.driver_version = p2.driver_version →
        p1.cuda_version = p2.cuda_version →
        p1.draw w = p2.draw w) := by
  constructor
  · intro w p s
    rfl
  · intro w p1 p2 hsnap hc hr hx hy hn hd hcu
    unfold DevicePanel.draw DevicePanel.frameLines DevicePanel.headerLines
    rw [hsnap, hc, hr, hx, hy, hn, hd, hcu]

/-- C6 witness: rewriting the stored snapshot list of a concrete panel does
not change its draw output, and a concrete pair of states agreeing on
draw-time snapshots draws identically. -/
theorem device_draw_uses_draw_time_snapshots_witness :
    DevicePanel.draw nvW0 { devP1 with snapshots := [snapB] } = devP1.draw nvW0
    ∧ DevicePanel.draw nvW0 { devP1 with snapshots := [] } = devP1.draw nvW0 :=
  ⟨device_draw_uses_draw_time_snapshots.1 nvW0 devP1 [snapB],
   device_draw_uses_draw_time_snapshots.1 nvW0 devP1 []⟩

/-! ### Length facts for the HostPanel frame -/

theorem pyRepeat_length (c : Char) (n : Int) : (pyRepeat c n).length = n.toNat := by
  show (List.replicate n.toNat c).length = n.toNat
  exact List.length_replicate _ _

theorem pyDropRight1_length (s : String) : (pyDropRight1 s).length = s.length - 1 := by
  show s.data.dropLast.length = s.data.length - 1
  exact List.length_dropLast _

theorem hostDataLine79_length : hostDataLine79.length = 79 := by decide

theorem hostSepLine79_length : hostSepLine79.length = 79 := by decide

theorem hostTopLine79_length : hostTopLine79.length = 79 := by decide

theorem hostBottomLine79_length : hostBottomLine79.length = 79 := by decide

theorem glyph_bar_length : ("│" : String).length = 1 := by decide

theorem glyph_cross_length : ("┼" : String).length = 1 := by decide

theorem glyph_rtee_length : ("┤" : String).length = 1 := by decide

theorem glyph_dcross_length : ("╪" : String).length = 1 := by decide

theorem glyph_rdtee_length : ("╡" : String).length = 1 := by decide

theorem glyph_bup_length : ("╧" : String).length = 1 := by decide

theorem glyph_bcorner_length : ("╛" : String).length = 1 := by decide

theorem writesAtX_of_mem_blitOps {y0 x0 c : Int} {ls : List String} {op : DrawOp}
    (h : op ∈ blitOps y0 x0 ls) (hw : op.writesAtX c) : x0 = c := by
  simp only [blitOps, List.mem_map] at h
  obtain ⟨il, _, rfl⟩ := h
  exact hw

/-! ### Claim C8 -/

theorem snapshots_fold_eq (ds : List DeviceM) (u t : ℚ) (gs : List ℚ) :
    ds.foldl
      (fun (acc : ℚ × ℚ × List ℚ) d =>
        let acc :=
          match d.snap.memory_used, d.snap.memory_total with
          | some uu, some tt => (acc.1 + uu, acc.2.1 + tt, acc.2.2)
          | _, _ => acc
        match d.snap.gpu_utilization with
        | some g => (acc.1, acc.2.1, acc.2.2 ++ [g])
        | none => acc)
      (u, t, gs)
    = (u + ((ds.filterMap (fun d =>
          match d.snap.memory_used, d.snap.memory_total with
          | some uu, some tt => some (uu, tt)
          | _, _ => none)).map Prod.fst).sum,
       t + ((ds.filterMap (fun d =>
          match d.snap.memory_used, d.snap.memory_total with
          | some uu, some tt => some (uu, tt)
          | _, _ => none)).map Prod.snd).sum,
       gs ++ ds.filterMap (fun d => d.snap.gpu_utilization)) := by
  induction ds generalizing u t gs with
  | nil => simp
  | cons d rest ih =>
    rcases hu : d.snap.memory_used with _ | uu <;>
    rcases ht : d.snap.memory_total with _ | tt <;>
    rcases hg : d.snap.gpu_utilization with _ | g <;>
      simp [hu, ht, hg, ih, add_assoc]

/-- C8: in HostPanel.take_snapshots, devices with an NA memory reading are
excluded from the memory totals and NA utilizations from the average; the
average-memory sample 100 * used / total is pushed exactly when the summed
memory total is strictly positive, and the average-utilization sample
exactly when at least one non-NA utilization was collected, so no division
by zero occurs and a cycle with no usable data pushes nothing to either
average buffer. -/
theorem take_snapshots_na_guards (w : HWorld) (p : HostPanel) :
    ((0 : ℚ) < (p.memPairs.map Prod.snd).sum →
      (p.takeSnapshots w).average_memory_percent.samples
        = p.average_memory_percent.samples
          ++ [100 * (p.memPairs.map Prod.fst).sum / (p.memPairs.map Prod.snd).sum])
    ∧ (¬ (0 : ℚ) < (p.memPairs.map Prod.snd).sum →
      (p.takeSnapshots w).average_memory_percent = p.average_memory_percent)
    ∧ (p.utilList ≠ [] →
      (p.takeSnapshots w).average_gpu_utilization.samples
        = p.average_gpu_utilization.samples
          ++ [p.utilList.sum / (p.utilList.length : ℚ)])
    ∧ (p.utilList = [] →
      (p.takeSnapshots w).average_gpu_utilization = p.average_gpu_utilization) := by
  unfold HostPanel.takeSnapshots
  dsimp only
  rw [snapshots_fold_eq]
  simp only [zero_add, List.nil_append]
  have hmemeq : (p.devices.filterMap (fun d =>
      match d.snap.memory_used, d.snap.memory_total with
      | some uu, some tt => some (uu, tt)
      | _, _ => none)) = p.memPairs := rfl
  have hutileq : p.devices.filterMap (fun d => d.snap.gpu_utilization) = p.utilList := rfl
  rw [hmemeq, hutileq]
  refine ⟨?_, ?_, ?_, ?_⟩
  · intro h
    rw [if_pos h]
    split <;> simp [HistBuf.add]
  · intro h
    rw [if_neg h]
    split <;> simp [HistBuf.add]
  · intro h
    rw [if_pos (List.length_pos.mpr h)]
    split <;> simp [HistBuf.add]
  · intro h
    rw [if_neg (by simp [h])]
    split <;> simp [HistBuf.add]

/-- C8 witness on a concrete panel with one fully-reporting device: memory
total 120 is positive, so 100 * 30 / 120 is pushed; one utilization was
collected, so 40 / 1 is pushed. -/
theorem take_snapshots_na_guards_witness :
    (hostP0.takeSnapshots hw0).average_memory_percent.samples
      = hostP0.average_memory_percent.samples
        ++ [100 * (hostP0.memPairs.map Prod.fst).sum / (hostP0.memPairs.map Prod.snd).sum]
    ∧ (hostP0.takeSnapshots hw0).average_gpu_utilization.samples
      = hostP0.average_gpu_utilization.samples
        ++ [hostP0.utilList.sum / (hostP0.utilList.length : ℚ)] :=
  ⟨(take_snapshots_na_guards hw0 hostP0).1
      (by simp [HostPanel.memPairs, hostP0, hostInit, devFull]),
   (take_snapshots_na_guards hw0 hostP0).2.2.1
      (by simp [HostPanel.utilList, hostP0, hostInit, devFull])⟩

/-! ### Claim C5 -/

/-- C5: for a HostPanel in full (non-compact, non-ascii) mode, draw writes
at column x + 79 -- the side-by-side secondary GPU graph block -- exactly
when the panel width is at least 100; frame_lines widens every row to the
full panel width (inserting the junction character in the top rule) exactly
at width at least 100, and below 100 columns produces precisely the fixed
narrow 79-column frame. -/
theorem draw_side_graphs_iff_wide (w : HWorld) (p : HostPanel)
    (hc : p._compact = false) (ha : p.ascii = false) :
    ((100 ≤ p._width) ↔ ∃ op ∈ p.draw w, op.writesAtX (p.x + 79))
    ∧ (100 ≤ p._width → ∀ l ∈ p.frameLines, (l.length : Int) = p._width)
    ∧ (100 ≤ p._width → '╪' ∈ p.frameTop.data)
    ∧ (¬ 100 ≤ p._width → p.frameLines = hostNarrowFrame) := by
  have hcompact : p.compact = false := by simp [HostPanel.compact, hc, ha]
  have hfl_wide : 100 ≤ p._width → p.frameLines =
      [pyDropRight1 hostTopLine79 ++ "╪" ++ pyRepeat '═' (p._width - 79 - 1) ++ "╡",
       hostDataLine79 ++ pyRepeat ' ' (p._width - 79 - 1) ++ "│",
       hostDataLine79 ++ pyRepeat ' ' (p._width - 79 - 1) ++ "│",
       hostDataLine79 ++ pyRepeat ' ' (p._width - 79 - 1) ++ "│",
       hostDataLine79 ++ pyRepeat ' ' (p._width - 79 - 1) ++ "│",
       hostDataLine79 ++ pyRepeat ' ' (p._width - 79 - 1) ++ "│",
       pyDropRight1 hostSepLine79 ++ "┼" ++ pyRepeat '─' (p._width - 79 - 1) ++ "┤",
       hostDataLine79 ++ pyRepeat ' ' (p._width - 79 - 1) ++ "│",
       hostDataLine79 ++ pyRepeat ' ' (p._width - 79 - 1) ++ "│",
       hostDataLine79 ++ pyRepeat ' ' (p._width - 79 - 1) ++ "│",
       hostDataLine79 ++ pyRepeat ' ' (p._width - 79 - 1) ++ "│",
       hostDataLine79 ++ pyRepeat ' ' (p._width - 79 - 1) ++ "│",
       pyDropRight1 hostBottomLine79 ++ "╧" ++ pyRepeat '═' (p._width - 79 - 1) ++ "╛"] := by
    intro hw
    unfold HostPanel.frameLines
    rw [if_neg (by simp [hcompact, ha] : ¬((p.compact || p.ascii) = true))]
    simp only [ge_iff_le, eq_true hw, if_true]
  have hfl_narrow : ¬ 100 ≤ p._width → p.frameLines = hostNarrowFrame := by
    intro hnw
    unfold HostPanel.frameLines
    rw [if_neg (by simp [hcompact, ha] : ¬((p.compact || p.ascii) = true))]
    simp only [ge_iff_le, eq_false hnw, if_false]
    rfl
  refine ⟨⟨?_, ?_⟩, ?_, ?_, hfl_narrow⟩
  · -- wide layout: the gpu-utilization caption is written at column x + 79
    intro hw
    unfold HostPanel.draw
    simp only [hcompact, Bool.false_eq_true, if_false, ge_iff_le, eq_true hw, if_true]
    rcases hsel : (if p.devices.length > 1 then p.selected else none) with _ | d
    · simp only [hsel]
      refine ⟨DrawOp.addstr (p.y + 10) (p.x + 79)
        (" " ++ p.average_gpu_utilization.strRepr ++ " "), ?_, rfl⟩
      apply List.mem_append_right
      apply List.mem_append_right
      simp
    · simp only [hsel]
      refine ⟨DrawOp.addstr (p.y + 10) (p.x + 79)
        (" " ++ d.gpu_utilization.strRepr ++ " "), ?_, rfl⟩
      apply List.mem_append_right
      apply List.mem_append_right
      simp
  · -- narrow layout: every written op sits at column x or x + 1
    rintro ⟨op, hop, hwx⟩
    by_contra hnw
    unfold HostPanel.draw at hop
    simp only [hcompact, Bool.false_eq_true, if_false, ge_iff_le,
      eq_false hnw, if_false, List.append_nil] at hop
    have hx79 : p.x + 79 ≠ p.x ∧ p.x + 79 ≠ p.x + 1 := by omega
    rcases List.mem_append.mp hop with hop1 | hgr
    · rcases List.mem_append.mp hop1 with hop2 | hfr
      · -- the leading colour reset
        simp only [List.mem_singleton] at hop2
        subst hop2
        exact hwx
      · -- frame ops under the dirty flag
        rcases hdirty : p.need_redraw with _ | _
        · rw [hdirty] at hfr
          simp at hfr
        · rw [hdirty] at hfr
          simp only [if_true, List.append_nil] at hfr
          rcases List.mem_append.mp hfr with hblit | hca
          · have := writesAtX_of_mem_blitOps hblit hwx
            omega
          · simp only [List.mem_cons, List.not_mem_nil, or_false] at hca
            rcases hca with rfl | rfl | rfl <;> exact hwx
    · -- the three host graphs at column x + 1
      rcases List.mem_append.mp hgr with hgr1 | hswap
      · rcases List.mem_append.mp hgr1 with hgr2 | hmem2
        · rcases List.mem_append.mp hgr2 with hgr3 | hcpu
          · rcases List.mem_append.mp hgr3 with hgr4 | hcolm
            · rcases List.mem_append.mp hgr4 with hcolc | hcpu2
              · simp only [List.mem_singleton] at hcolc
                subst hcolc
                exact hwx
              · have := writesAtX_of_mem_blitOps hcpu2 hwx
                omega
            · simp only [List.mem_singleton] at hcolm
              subst hcolm
              exact hwx
          · have := writesAtX_of_mem_blitOps hcpu hwx
            omega
        · simp only [List.mem_singleton] at hmem2
          subst hmem2
          exact hwx
      · have := writesAtX_of_mem_blitOps hswap hwx
        omega
  · -- wide layout: every frame row spans the full width
    intro hw l hl
    rw [hfl_wide hw] at hl
    have h79 : (79 : Int) ≤ p._width := by omega
    simp only [List.mem_cons, List.not_mem_nil, or_false] at hl
    rcases hl with rfl | rfl | rfl | rfl | rfl | rfl | rfl | rfl | rfl | rfl | rfl | rfl | rfl <;>
      · simp only [String.length_append, pyRepeat_length, pyDropRight1_length,
          hostDataLine79_length, hostSepLine79_length, hostTopLine79_length,
          hostBottomLine79_length, glyph_bar_length, glyph_cross_length,
          glyph_rtee_length, glyph_dcross_length, glyph_rdtee_length,
          glyph_bup_length, glyph_bcorner_length]
        omega
  · -- wide layout: the top rule holds the junction character
    intro hw
    unfold HostPanel.frameTop
    rw [hfl_wide hw]
    have hmem : '╪' ∈ ("╪" : String).data := by decide
    simp [String.data_append, List.mem_append, hmem]

/-- C5 witness at a concrete 120-column full-mode panel: the side graphs
are drawn, the frame spans 120 columns with a junction in the top rule;
and at 90 columns the narrow frame is produced. -/
theorem draw_side_graphs_iff_wide_witness :
    (∃ op ∈ HostPanel.draw hw0 { hostP0 with _width := 120 },
        op.writesAtX (({ hostP0 with _width := 120 } : HostPanel).x + 79))
    ∧ '╪' ∈ (HostPanel.frameTop { hostP0 with _width := 120 }).data
    ∧ HostPanel.frameLines { hostP0 with _width := 90 } = hostNarrowFrame :=
  ⟨((draw_side_graphs_iff_wide hw0 { hostP0 with _width := 120 } rfl rfl).1).mp (by decide),
   (draw_side_graphs_iff_wide hw0 { hostP0 with _width := 120 } rfl rfl).2.2.1 (by decide),
   (draw_side_graphs_iff_wide hw0 { hostP0 with _width := 90 } rfl rfl).2.2.2 (by decide)⟩

/-! ### Claim C9: order lemmas for the process-table key comparison -/

theorem listLtb_trans {a b c : List Char} (hab : listLtb a b = true)
    (hbc : listLtb b c = true) : listLtb a c = true := by
  induction a generalizing b c with
  | nil =>
    cases c with
    | nil => cases b <;> simp [listLtb] at hab hbc
    | cons z zs => simp [listLtb]
  | cons x xs ih =>
    cases b with
    | nil => simp [listLtb] at hab
    | cons y ys =>
      cases c with
      | nil => simp [listLtb] at hbc
      | cons z zs =>
        simp only [listLtb] at hab hbc ⊢
        by_cases hxy : x < y
        · by_cases hyz : y < z
          · rw [if_pos (lt_trans hxy hyz)]
          · by_cases hzy : z < y
            · rw [if_neg hyz, if_pos hzy] at hbc
              exact absurd hbc (by simp)
            · have hyzeq : y = z := le_antisymm (not_lt.mp hzy) (not_lt.mp hyz)
              rw [if_pos (hyzeq ▸ hxy)]
        · by_cases hyx : y < x
          · rw [if_neg hxy, if_pos hyx] at hab
            exact absurd hab (by simp)
          · have hxyeq : x = y := le_antisymm (not_lt.mp hyx) (not_lt.mp hxy)
            subst hxyeq
            by_cases hyz : x < z
            · rw [if_pos hyz]
            · by_cases hzy : z < x
              · rw [if_neg hyz, if_pos hzy] at hbc
                exact absurd hbc (by simp)
              · rw [if_neg hxy, if_neg hyx] at hab
                rw [if_neg hyz, if_neg hzy] at hbc
                rw [if_neg hyz, if_neg hzy]
                exact ih hab hbc

theorem listLtb_asymm {a b : List Char} (hab : listLtb a b = true) :
    listLtb b a = false := by
  induction a generalizing b with
  | nil =>
    cases b with
    | nil => simp [listLtb] at hab
    | cons y ys => simp [listLtb]
  | cons x xs ih =>
    cases b with
    | nil => simp [listLtb] at hab
    | cons y ys =>
      simp only [listLtb] at hab ⊢
      by_cases hxy : x < y
      · rw [if_neg (lt_asymm hxy), if_pos hxy]
      · by_cases hyx : y < x
        · rw [if_neg hxy, if_pos hyx] at hab
          exact absurd hab (by simp)
        · rw [if_neg hxy, if_neg hyx] at hab
          rw [if_neg hyx, if_neg hxy]
          exact ih hab

theorem listLtb_total {a b : List Char} (h : a ≠ b) :
    listLtb a b = true ∨ listLtb b a = true := by
  induction a generalizing b with
  | nil =>
    cases b with
    | nil => exact absurd rfl h
    | cons y ys => left; simp [listLtb]
  | cons x xs ih =>
    cases b with
    | nil => right; simp [listLtb]
    | cons y ys =>
      simp only [listLtb]
      by_cases hxy : x < y
      · left; rw [if_pos hxy]
      · by_cases hyx : y < x
        · right; rw [if_pos hyx]
        · have hxyeq : x = y := le_antisymm (not_lt.mp hyx) (not_lt.mp hxy)
          subst hxyeq
          have htl : xs ≠ ys := fun hx => h (by rw [hx])
          rcases ih htl with h1 | h1
          · left; rw [if_neg hxy, if_neg hyx]; exact h1
          · right; rw [if_neg hxy, if_neg hyx]; exact h1

theorem strLtb_trans {a b c : String} (hab : strLtb a b = true)
    (hbc : strLtb b c = true) : strLtb a c = true :=
  listLtb_trans hab hbc

theorem strLtb_asymm {a b : String} (hab : strLtb a b = true) :
    strLtb b a = false :=
  listLtb_asymm hab

theorem strLtb_total {a b : String} (h : a ≠ b) :
    strLtb a b = true ∨ strLtb b a = true :=
  listLtb_total (fun hd => h (String.ext hd))

theorem pkeyLeb_total (a b : PKey) : pkeyLeb a b = true ∨ pkeyLeb b a = true := by
  obtain ⟨a1, as, ap⟩ := a
  obtain ⟨b1, bs, bp⟩ := b
  simp only [pkeyLeb]
  by_cases h1 : a1 = b1
  · subst h1
    simp only [ne_eq, not_true_eq_false, if_false, reduceIte]
    by_cases hs : as = bs
    · subst hs
      simp only [not_true_eq_false, reduceIte, decide_eq_true_eq]
      omega
    · simp only [hs, Ne.symm hs, not_false_eq_true, reduceIte]
      exact strLtb_total hs
  · simp only [ne_eq, h1, Ne.symm h1, not_false_eq_true, reduceIte,
      decide_eq_true_eq]
    omega

theorem pkeyLeb_trans {a b c : PKey} (hab : pkeyLeb a b = true)
    (hbc : pkeyLeb b c = true) : pkeyLeb a c = true := by
  obtain ⟨a1, as, ap⟩ := a
  obtain ⟨b1, bs, bp⟩ := b
  obtain ⟨c1, cs, cp⟩ := c
  simp only [pkeyLeb] at hab hbc ⊢
  by_cases h1 : a1 = b1 <;> by_cases h2 : b1 = c1
  · subst h1; subst h2
    simp only [ne_eq, not_true_eq_false, reduceIte] at hab hbc ⊢
    by_cases hs1 : as = bs <;> by_cases hs2 : bs = cs
    · subst hs1; subst hs2
      simp only [not_true_eq_false, reduceIte] at hab hbc ⊢
      simp only [decide_eq_true_eq] at hab hbc ⊢
      omega
    · subst hs1
      simp only [hs2, not_false_eq_true, reduceIte, not_true_eq_false] at hab hbc ⊢
      exact hbc
    · subst hs2
      simp only [hs1, not_false_eq_true, reduceIte, not_true_eq_false] at hab hbc ⊢
      exact hab
    · by_cases hs3 : as = cs
      · subst hs3
        simp only [hs1, hs2, not_false_eq_true, reduceIte] at hab hbc
        have := strLtb_asymm (strLtb_trans hab hbc)
        rw [strLtb_trans hab hbc] at this
        exact absurd this (by simp)
      · simp only [hs1, hs2, hs3, not_false_eq_true, reduceIte] at hab hbc ⊢
        exact strLtb_trans hab hbc
  · subst h1
    simp only [ne_eq, h2, not_true_eq_false, not_false_eq_true, reduceIte] at hbc ⊢
    exact hbc
  · subst h2
    simp only [ne_eq, h1, not_true_eq_false, not_false_eq_true, reduceIte] at hab ⊢
    exact hab
  · simp only [ne_eq, h1, h2, not_false_eq_true, reduceIte,
      decide_eq_true_eq] at hab hbc
    by_cases h3 : a1 = c1
    · omega
    · simp only [ne_eq, h3, not_false_eq_true, reduceIte, decide_eq_true_eq]
      omega

theorem pkeyLeb_antisymm {a b : PKey} (hab : pkeyLeb a b = true)
    (hba : pkeyLeb b a = true) : a = b := by
  obtain ⟨a1, as, ap⟩ := a
  obtain ⟨b1, bs, bp⟩ := b
  simp only [pkeyLeb] at hab hba
  by_cases h1 : a1 = b1
  · subst h1
    simp only [ne_eq, not_true_eq_false, reduceIte] at hab hba
    by_cases hs : as = bs
    · subst hs
      simp only [not_true_eq_false, reduceIte, decide_eq_true_eq] at hab hba
      have : ap = bp := le_antisymm hab hba
      rw [this]
    · simp only [hs, Ne.symm hs, not_false_eq_true, reduceIte] at hab hba
      have := strLtb_asymm hab
      rw [hba] at this
      exact absurd this (by simp)
  · simp only [ne_eq, h1, Ne.symm h1, not_false_eq_true, reduceIte,
      decide_eq_true_eq] at hab hba
    omega

theorem pkeyLtb_of_leb_ne {a b : PKey} (hab : pkeyLeb a b = true)
    (hne : a ≠ b) : pkeyLtb a b = true := by
  obtain ⟨a1, as, ap⟩ := a
  obtain ⟨b1, bs, bp⟩ := b
  simp only [pkeyLeb] at hab
  simp only [pkeyLtb]
  by_cases h1 : a1 = b1
  · subst h1
    simp only [ne_eq, not_true_eq_false, reduceIte] at hab ⊢
    by_cases hs : as = bs
    · subst hs
      simp only [not_true_eq_false, reduceIte, decide_eq_true_eq] at hab ⊢
      have : ap ≠ bp := by
        intro hp
        exact hne (by rw [hp])
      omega
    · simp only [hs, not_false_eq_true, reduceIte] at hab ⊢
      exact hab
  · simp only [ne_eq, h1, not_false_eq_true, reduceIte] at hab ⊢
    exact hab

/-! ### Claim C9: dict-semantics lemmas -/

theorem mem_dictInsert {α : Type} [DecidableEq α] {β : Type} {k : α} {v : β}
    {l : List (α × β)} {e : α × β} (h : e ∈ dictInsert k v l) :
    e = (k, v) ∨ e ∈ l := by
  induction l with
  | nil => simpa [dictInsert] using h
  | cons hd tl ih =>
    obtain ⟨k2, v2⟩ := hd
    simp only [dictInsert] at h
    by_cases hk : k = k2
    · rw [if_pos hk] at h
      rcases List.mem_cons.mp h with rfl | hh
      · left; rw [hk]
      · right; exact List.mem_cons_of_mem _ hh
    · rw [if_neg hk] at h
      rcases List.mem_cons.mp h with rfl | hh
      · right; exact List.mem_cons_self _ _
      · rcases ih hh with h1 | h1
        · left; exact h1
        · right; exact List.mem_cons_of_mem _ h1

theorem mem_dictOfList_aux {α : Type} [DecidableEq α] {β : Type}
    {l : List (α × β)} {acc : List (α × β)} {e : α × β}
    (h : e ∈ l.foldl (fun acc kv => dictInsert kv.1 kv.2 acc) acc) :
    e ∈ acc ∨ e ∈ l := by
  induction l generalizing acc with
  | nil => left; simpa using h
  | cons hd tl ih =>
    simp only [List.foldl_cons] at h
    rcases ih h with h1 | h1
    · rcases mem_dictInsert h1 with h2 | h2
      · right
        rw [h2]
        exact List.mem_cons_self _ _
      · left; exact h2
    · right; exact List.mem_cons_of_mem _ h1

theorem mem_dictOfList {α : Type} [DecidableEq α] {β : Type}
    {l : List (α × β)} {e : α × β} (h : e ∈ dictOfList l) : e ∈ l := by
  rcases mem_dictOfList_aux h with h1 | h1
  · simp at h1
  · exact h1

theorem keys_dictInsert {α : Type} [DecidableEq α] {β : Type} (k : α) (v : β)
    (l : List (α × β)) :
    (dictInsert k v l).map Prod.fst =
      if k ∈ l.map Prod.fst then l.map Prod.fst else l.map Prod.fst ++ [k] := by
  induction l with
  | nil => simp [dictInsert]
  | cons hd tl ih =>
    obtain ⟨k2, v2⟩ := hd
    simp only [dictInsert]
    by_cases hk : k = k2
    · rw [if_pos hk]
      subst hk
      simp only [List.map_cons]
      rw [if_pos (List.mem_cons_self _ _)]
    · rw [if_neg hk]
      simp only [List.map_cons, List.mem_cons]
      by_cases hmem : k ∈ tl.map Prod.fst
      · rw [if_pos (Or.inr hmem)]
        simp only [List.map_cons, ih, if_pos hmem]
      · rw [if_neg (by rintro (h1 | h2); exact hk h1; exact hmem h2)]
        simp only [List.map_cons, ih, if_neg hmem, List.cons_append]

theorem nodup_keys_dictInsert {α : Type} [DecidableEq α] {β : Type} {k : α}
    {v : β} {l : List (α × β)} (h : (l.map Prod.fst).Nodup) :
    ((dictInsert k v l).map Prod.fst).Nodup := by
  rw [keys_dictInsert]
  by_cases hmem : k ∈ l.map Prod.fst
  · rw [if_pos hmem]; exact h
  · rw [if_neg hmem]
    simp [List.nodup_append, h, hmem]

theorem nodup_keys_dictOfList {α : Type} [DecidableEq α] {β : Type}
    (l : List (α × β)) : ((dictOfList l).map Prod.fst).Nodup := by
  have aux : ∀ (acc : List (α × β)), (acc.map Prod.fst).Nodup →
      ((l.foldl (fun acc kv => dictInsert kv.1 kv.2 acc) acc).map Prod.fst).Nodup := by
    induction l with
    | nil => intro acc h; simpa using h
    | cons hd tl ih =>
      intro acc h
      simp only [List.foldl_cons]
      exact ih _ (nodup_keys_dictInsert h)
  exact aux [] (by simp)

theorem dictInsert_eq_append {α : Type} [DecidableEq α] {β : Type} {k : α}
    {v : β} {l : List (α × β)} (h : k ∉ l.map Prod.fst) :
    dictInsert k v l = l ++ [(k, v)] := by
  induction l with
  | nil => rfl
  | cons hd tl ih =>
    obtain ⟨k2, v2⟩ := hd
    simp only [List.map_cons, List.mem_cons, not_or] at h
    simp only [dictInsert, if_neg h.1, List.cons_append]
    rw [ih h.2]

theorem dictOfList_eq_self {α : Type} [DecidableEq α] {β : Type}
    {l : List (α × β)} (h : (l.map Prod.fst).Nodup) : dictOfList l = l := by
  have aux : ∀ (acc : List (α × β)) (rest : List (α × β)),
      (((acc ++ rest).map Prod.fst)).Nodup →
      rest.foldl (fun acc kv => dictInsert kv.1 kv.2 acc) acc = acc ++ rest := by
    intro acc rest
    induction rest generalizing acc with
    | nil => intro _; simp
    | cons hd tl ih =>
      intro hnd
      obtain ⟨k2, v2⟩ := hd
      have hknotin : k2 ∉ acc.map Prod.fst := by
        intro hmem
        simp only [List.map_append, List.nodup_append, List.map_cons,
          List.nodup_cons, List.Disjoint] at hnd
        exact hnd.2.2 hmem (by simp)
      simp only [List.foldl_cons]
      rw [dictInsert_eq_append hknotin]
      have hrw : acc ++ (k2, v2) :: tl = (acc ++ [(k2, v2)]) ++ tl :=
        List.append_cons acc (k2, v2) tl
      rw [hrw] at hnd
      rw [ih _ hnd, List.append_assoc]
      rfl
  exact aux [] l (by simpa using h)

theorem mem_processEntries {devices : List (List GpuProcess)}
    {e : PKey × GpuProcess} (h : e ∈ processEntries devices) :
    e.1 = procKey e.2 ∧ e.2.username.isSome = true := by
  simp only [processEntries, List.mem_flatMap, List.mem_filterMap] at h
  obtain ⟨ps, _, p0, _, heq⟩ := h
  rcases hu : p0.username with _ | u
  · rw [hu] at heq
    simp at heq
  · rw [hu] at heq
    rw [Option.map_some'] at heq
    simp only [Option.some.injEq] at heq
    rw [← heq]
    simp [procKey, hu]

theorem nodup_map_of_sub {α β : Type} {l l' : List α} {f : α → β}
    (hsub : ∀ x ∈ l', x ∈ l) (hmap : (l.map f).Nodup) (hnd : l'.Nodup) :
    (l'.map f).Nodup :=
  List.Nodup.map_on
    (fun x hx y hy hf =>
      List.inj_on_of_nodup_map hmap (hsub x hx) (hsub y hy) hf) hnd

/-- C9 counterexample: with pid 5 appearing on devices 0 and 2, the sorted
dict items are keyed (0, alice, 5), (1, carol, 7), (2, bob, 5); rebuilding
the OrderedDict keyed by pid alone collapses the two pid-5 items to the
first position with the last value, so the returned iteration order holds
the device-2 process before the device-1 process -- not ascending in the
triple (device index, username, pid). -/
theorem processes_sorted_cex :
    panelProcesses procsDup =
      [(5, { pid := 5, deviceIndex := 2, username := some "bob" }),
       (7, { pid := 7, deviceIndex := 1, username := some "carol" })]
    ∧ ¬ (panelProcesses procsDup).Pairwise
        (fun a b => pkeyLeb (procKey a.2) (procKey b.2) = true) := by
  constructor
  · decide
  · decide

/-- C9 (amended): ProcessPanel.processes silently omits every process whose
username lookup raises (total function, no propagation), maps each returned
entry's key to its process's pid, and -- whenever the successfully-named
processes have pairwise distinct pids, so that the final pid-keyed
OrderedDict collapses nothing -- iterates in ascending order of the triple
(device index, username, pid). -/
theorem processes_sorted_by_key (devices : List (List GpuProcess))
    (h : ((processEntries devices).map (fun e => e.2.pid)).Nodup) :
    (panelProcesses devices).Pairwise
        (fun a b => pkeyLtb (procKey a.2) (procKey b.2) = true)
    ∧ ∀ e ∈ panelProcesses devices,
        e.2.username.isSome = true ∧ e.1 = e.2.pid := by
  classical
  haveI instTot : IsTotal (PKey × GpuProcess) (fun a b => pkeyLeb a.1 b.1 = true) :=
    ⟨fun a b => pkeyLeb_total a.1 b.1⟩
  haveI instTrans : IsTrans (PKey × GpuProcess) (fun a b => pkeyLeb a.1 b.1 = true) :=
    ⟨fun a b c hab hbc => pkeyLeb_trans hab hbc⟩
  have hsorted := List.sorted_insertionSort
    (fun a b : PKey × GpuProcess => pkeyLeb a.1 b.1 = true)
    (dictOfList (processEntries devices))
  have hperm := List.perm_insertionSort
    (fun a b : PKey × GpuProcess => pkeyLeb a.1 b.1 = true)
    (dictOfList (processEntries devices))
  set sorted := List.insertionSort
    (fun a b : PKey × GpuProcess => pkeyLeb a.1 b.1 = true)
    (dictOfList (processEntries devices)) with hsorteddef
  have hdictkeys := nodup_keys_dictOfList (processEntries devices)
  have hmementries : ∀ e ∈ sorted, e ∈ processEntries devices := by
    intro e he
    exact mem_dictOfList (hperm.mem_iff.mp he)
  have hinv : ∀ e ∈ sorted, e.1 = procKey e.2 ∧ e.2.username.isSome = true :=
    fun e he => mem_processEntries (hmementries e he)
  have hkeysnd : (sorted.map Prod.fst).Nodup :=
    ((hperm.map Prod.fst).nodup_iff).mpr hdictkeys
  have hsortednd : sorted.Nodup := hkeysnd.of_map _
  have hpidsnd : (sorted.map (fun e => e.2.pid)).Nodup :=
    nodup_map_of_sub hmementries h hsortednd
  have hkeysne : sorted.Pairwise (fun a b => a.1 ≠ b.1) :=
    List.pairwise_map.mp hkeysnd
  have hPairLt : sorted.Pairwise (fun a b => pkeyLtb a.1 b.1 = true) :=
    (hsorted.and hkeysne).imp (fun hx => pkeyLtb_of_leb_ne hx.1 hx.2)
  have hmappedkeys :
      ((sorted.map (fun e => (e.1.2.2, e.2))).map Prod.fst).Nodup := by
    rw [List.map_map]
    have heq : sorted.map (Prod.fst ∘ fun e : PKey × GpuProcess => (e.1.2.2, e.2))
        = sorted.map (fun e => e.2.pid) := by
      refine List.map_congr_left ?_
      intro e he
      show e.1.2.2 = e.2.pid
      rw [(hinv e he).1]
      rfl
    rw [heq]
    exact hpidsnd
  have hcollapse :
      dictOfList (sorted.map (fun e => (e.1.2.2, e.2)))
        = sorted.map (fun e => (e.1.2.2, e.2)) :=
    dictOfList_eq_self hmappedkeys
  have hpp : panelProcesses devices = sorted.map (fun e => (e.1.2.2, e.2)) := by
    unfold panelProcesses
    dsimp only
    rw [← hsorteddef]
    exact hcollapse
  rw [hpp]
  constructor
  · rw [List.pairwise_map]
    refine List.Pairwise.imp_of_mem ?_ hPairLt
    intro a b ha hb hlt
    show pkeyLtb (procKey a.2) (procKey b.2) = true
    rw [← (hinv a ha).1, ← (hinv b hb).1]
    exact hlt
  · intro e he
    simp only [List.mem_map] at he
    obtain ⟨e0, he0, rfl⟩ := he
    refine ⟨(hinv e0 he0).2, ?_⟩
    show e0.1.2.2 = e0.2.pid
    rw [(hinv e0 he0).1]
    rfl

/-- C9 witness on distinct-pid input with one failing username lookup. -/
theorem processes_sorted_by_key_witness :
    (panelProcesses procsOk).Pairwise
        (fun a b => pkeyLtb (procKey a.2) (procKey b.2) = true)
    ∧ ∀ e ∈ panelProcesses procsOk,
        e.2.username.isSome = true ∧ e.1 = e.2.pid :=
  processes_sorted_by_key procsOk (by decide)

end IxTop
